/-
Verification of the unity model loader
(src/ggml/examples/unity/unity_model_loader.cpp).

The development shallowly embeds the loader.  A byte stream stands for
the std::ifstream the loader reads from, the unity_hparams record holds
one byte string per field of the hyperparameter table, and
tensors_alloc is modelled as a pure state transformer on the model
record.  Types and functions that the translation unit uses but does
not define (the unity_hparams struct layout, fairseq2_model,
TransformerDecoder, MultiheadAttention_init, LayerNorm_init) are
modelled from the spec; the corresponding doc comments say so.
-/
import Mathlib

set_option maxRecDepth 16384

/-- Embedding of std::ifstream as the loader sees it: the bytes not yet
consumed, plus the failbit.  A read past the end stores the characters
that were available and sets the failbit; once the failbit is set every
further read extracts nothing (standard C++ stream semantics). -/
structure ByteStream where
  rest : List Nat
  failbit : Bool
deriving DecidableEq

/-- Embedding of fin.read(dest, n): returns the extracted bytes and the
stream after the call.  If the failbit is already set nothing is
extracted; otherwise up to n bytes are taken and the failbit is set
exactly when fewer than n bytes remained. -/
def sread (s : ByteStream) (n : Nat) : List Nat × ByteStream :=
  if s.failbit then ([], s)
  else (s.rest.take n, ⟨s.rest.drop n, decide (s.rest.length < n)⟩)

/-- Effect of fin.read on the destination field: the extracted bytes
overwrite the leading bytes of the field and the rest of the field
keeps its previous contents (a short read only stores what it could
extract). -/
def writeInto (old b : List Nat) : List Nat :=
  b ++ old.drop b.length

/-- The hyperparameter table of the unity architecture.  The fields and
their order are exactly the 52 fields unity_model_loader::load_hparams
reads (source lines 19 to 70).  Modelled from the spec: the struct
definition itself lives in a header that is not under src/, so every
field is carried as its raw byte string (the fields are fixed-width
scalars; position, not value, defines meaning). -/
structure unity_hparams where
  model_dim : List Nat
  w2v2_encoder_config__model_dim : List Nat
  w2v2_encoder_config__max_seq_len : List Nat
  w2v2_encoder_config__feature_dim : List Nat
  w2v2_encoder_config__use_fbank : List Nat
  w2v2_encoder_config__first_pass_dropout_p : List Nat
  w2v2_encoder_config__layer_norm_features : List Nat
  w2v2_encoder_config__feature_extractor_bias : List Nat
  w2v2_encoder_config__feature_extractor_layer_norm_convs : List Nat
  w2v2_encoder_config__feature_grad_scale : List Nat
  w2v2_encoder_config__num_fbank_channels : List Nat
  w2v2_encoder_config__fbank_stride : List Nat
  w2v2_encoder_config__sample_fbank_every_k : List Nat
  w2v2_encoder_config__pos_encoder_depth : List Nat
  w2v2_encoder_config__pos_conv_kernel_size : List Nat
  w2v2_encoder_config__num_pos_conv_groups : List Nat
  w2v2_encoder_config__use_conformer : List Nat
  w2v2_encoder_config__num_encoder_layers : List Nat
  w2v2_encoder_config__num_encoder_attn_heads : List Nat
  w2v2_encoder_config__ffn_inner_dim : List Nat
  w2v2_encoder_config__dropout_p : List Nat
  w2v2_encoder_config__attn_dropout_p : List Nat
  w2v2_encoder_config__layer_drop_p : List Nat
  w2v2_encoder_config__norm_order : List Nat
  w2v2_encoder_config__depthwise_conv_kernel_size : List Nat
  nllb_config__model_dim : List Nat
  nllb_config__max_seq_len : List Nat
  nllb_config__vocabulary_size : List Nat
  nllb_config__pad_idx : List Nat
  nllb_config__num_encoder_layers : List Nat
  nllb_config__num_decoder_layers : List Nat
  nllb_config__num_encoder_attn_heads : List Nat
  nllb_config__num_decoder_attn_heads : List Nat
  nllb_config__ffn_inner_dim : List Nat
  nllb_config__dropout_p : List Nat
  t2u_config__model_dim : List Nat
  t2u_config__unit_max_seq_len : List Nat
  t2u_config__unit_vocabulary_size : List Nat
  t2u_config__unit_pad_idx : List Nat
  t2u_config__num_encoder_layers : List Nat
  t2u_config__num_decoder_layers : List Nat
  t2u_config__num_encoder_attn_heads : List Nat
  t2u_config__num_decoder_attn_heads : List Nat
  t2u_config__ffn_inner_dim : List Nat
  t2u_config__dropout_p : List Nat
  use_text_encoder : List Nat
  use_conformer_adaptor : List Nat
  num_adaptor_layers : List Nat
  adaptor_kernel_size : List Nat
  adaptor_stride : List Nat
  adaptor_layer_norm : List Nat
  adaptor_dropout_p : List Nat
deriving DecidableEq

/-- Byte widths of the 52 fields, that is the sizeof of each struct
member.  Modelled from the spec: the widths come from the missing
header, so they are kept as a parameter of the development. -/
structure HparamWidths where
  model_dim : Nat
  w2v2_encoder_config__model_dim : Nat
  w2v2_encoder_config__max_seq_len : Nat
  w2v2_encoder_config__feature_dim : Nat
  w2v2_encoder_config__use_fbank : Nat
  w2v2_encoder_config__first_pass_dropout_p : Nat
  w2v2_encoder_config__layer_norm_features : Nat
  w2v2_encoder_config__feature_extractor_bias : Nat
  w2v2_encoder_config__feature_extractor_layer_norm_convs : Nat
  w2v2_encoder_config__feature_grad_scale : Nat
  w2v2_encoder_config__num_fbank_channels : Nat
  w2v2_encoder_config__fbank_stride : Nat
  w2v2_encoder_config__sample_fbank_every_k : Nat
  w2v2_encoder_config__pos_encoder_depth : Nat
  w2v2_encoder_config__pos_conv_kernel_size : Nat
  w2v2_encoder_config__num_pos_conv_groups : Nat
  w2v2_encoder_config__use_conformer : Nat
  w2v2_encoder_config__num_encoder_layers : Nat
  w2v2_encoder_config__num_encoder_attn_heads : Nat
  w2v2_encoder_config__ffn_inner_dim : Nat
  w2v2_encoder_config__dropout_p : Nat
  w2v2_encoder_config__attn_dropout_p : Nat
  w2v2_encoder_config__layer_drop_p : Nat
  w2v2_encoder_config__norm_order : Nat
  w2v2_encoder_config__depthwise_conv_kernel_size : Nat
  nllb_config__model_dim : Nat
  nllb_config__max_seq_len : Nat
  nllb_config__vocabulary_size : Nat
  nllb_config__pad_idx : Nat
  nllb_config__num_encoder_layers : Nat
  nllb_config__num_decoder_layers : Nat
  nllb_config__num_encoder_attn_heads : Nat
  nllb_config__num_decoder_attn_heads : Nat
  nllb_config__ffn_inner_dim : Nat
  nllb_config__dropout_p : Nat
  t2u_config__model_dim : Nat
  t2u_config__unit_max_seq_len : Nat
  t2u_config__unit_vocabulary_size : Nat
  t2u_config__unit_pad_idx : Nat
  t2u_config__num_encoder_layers : Nat
  t2u_config__num_decoder_layers : Nat
  t2u_config__num_encoder_attn_heads : Nat
  t2u_config__num_decoder_attn_heads : Nat
  t2u_config__ffn_inner_dim : Nat
  t2u_config__dropout_p : Nat
  use_text_encoder : Nat
  use_conformer_adaptor : Nat
  num_adaptor_layers : Nat
  adaptor_kernel_size : Nat
  adaptor_stride : Nat
  adaptor_layer_norm : Nat
  adaptor_dropout_p : Nat
deriving DecidableEq

/-- The fields of the table as a list, in the exact order in which
load_hparams reads them (one entry per fin.read call of the source). -/
def fieldsOf (h : unity_hparams) : List (List Nat) :=
  h.model_dim ::
  h.w2v2_encoder_config__model_dim ::
  h.w2v2_encoder_config__max_seq_len ::
  h.w2v2_encoder_config__feature_dim ::
  h.w2v2_encoder_config__use_fbank ::
  h.w2v2_encoder_config__first_pass_dropout_p ::
  h.w2v2_encoder_config__layer_norm_features ::
  h.w2v2_encoder_config__feature_extractor_bias ::
  h.w2v2_encoder_config__feature_extractor_layer_norm_convs ::
  h.w2v2_encoder_config__feature_grad_scale ::
  h.w2v2_encoder_config__num_fbank_channels ::
  h.w2v2_encoder_config__fbank_stride ::
  h.w2v2_encoder_config__sample_fbank_every_k ::
  h.w2v2_encoder_config__pos_encoder_depth ::
  h.w2v2_encoder_config__pos_conv_kernel_size ::
  h.w2v2_encoder_config__num_pos_conv_groups ::
  h.w2v2_encoder_config__use_conformer ::
  h.w2v2_encoder_config__num_encoder_layers ::
  h.w2v2_encoder_config__num_encoder_attn_heads ::
  h.w2v2_encoder_config__ffn_inner_dim ::
  h.w2v2_encoder_config__dropout_p ::
  h.w2v2_encoder_config__attn_dropout_p ::
  h.w2v2_encoder_config__layer_drop_p ::
  h.w2v2_encoder_config__norm_order ::
  h.w2v2_encoder_config__depthwise_conv_kernel_size ::
  h.nllb_config__model_dim ::
  h.nllb_config__max_seq_len ::
  h.nllb_config__vocabulary_size ::
  h.nllb_config__pad_idx ::
  h.nllb_config__num_encoder_layers ::
  h.nllb_config__num_decoder_layers ::
  h.nllb_config__num_encoder_attn_heads ::
  h.nllb_config__num_decoder_attn_heads ::
  h.nllb_config__ffn_inner_dim ::
  h.nllb_config__dropout_p ::
  h.t2u_config__model_dim ::
  h.t2u_config__unit_max_seq_len ::
  h.t2u_config__unit_vocabulary_size ::
  h.t2u_config__unit_pad_idx ::
  h.t2u_config__num_encoder_layers ::
  h.t2u_config__num_decoder_layers ::
  h.t2u_config__num_encoder_attn_heads ::
  h.t2u_config__num_decoder_attn_heads ::
  h.t2u_config__ffn_inner_dim ::
  h.t2u_config__dropout_p ::
  h.use_text_encoder ::
  h.use_conformer_adaptor ::
  h.num_adaptor_layers ::
  h.adaptor_kernel_size ::
  h.adaptor_stride ::
  h.adaptor_layer_norm ::
  h.adaptor_dropout_p :: []

/-- The field widths as a list, in the same fixed order. -/
def widthsOf (w : HparamWidths) : List Nat :=
  w.model_dim ::
  w.w2v2_encoder_config__model_dim ::
  w.w2v2_encoder_config__max_seq_len ::
  w.w2v2_encoder_config__feature_dim ::
  w.w2v2_encoder_config__use_fbank ::
  w.w2v2_encoder_config__first_pass_dropout_p ::
  w.w2v2_encoder_config__layer_norm_features ::
  w.w2v2_encoder_config__feature_extractor_bias ::
  w.w2v2_encoder_config__feature_extractor_layer_norm_convs ::
  w.w2v2_encoder_config__feature_grad_scale ::
  w.w2v2_encoder_config__num_fbank_channels ::
  w.w2v2_encoder_config__fbank_stride ::
  w.w2v2_encoder_config__sample_fbank_every_k ::
  w.w2v2_encoder_config__pos_encoder_depth ::
  w.w2v2_encoder_config__pos_conv_kernel_size ::
  w.w2v2_encoder_config__num_pos_conv_groups ::
  w.w2v2_encoder_config__use_conformer ::
  w.w2v2_encoder_config__num_encoder_layers ::
  w.w2v2_encoder_config__num_encoder_attn_heads ::
  w.w2v2_encoder_config__ffn_inner_dim ::
  w.w2v2_encoder_config__dropout_p ::
  w.w2v2_encoder_config__attn_dropout_p ::
  w.w2v2_encoder_config__layer_drop_p ::
  w.w2v2_encoder_config__norm_order ::
  w.w2v2_encoder_config__depthwise_conv_kernel_size ::
  w.nllb_config__model_dim ::
  w.nllb_config__max_seq_len ::
  w.nllb_config__vocabulary_size ::
  w.nllb_config__pad_idx ::
  w.nllb_config__num_encoder_layers ::
  w.nllb_config__num_decoder_layers ::
  w.nllb_config__num_encoder_attn_heads ::
  w.nllb_config__num_decoder_attn_heads ::
  w.nllb_config__ffn_inner_dim ::
  w.nllb_config__dropout_p ::
  w.t2u_config__model_dim ::
  w.t2u_config__unit_max_seq_len ::
  w.t2u_config__unit_vocabulary_size ::
  w.t2u_config__unit_pad_idx ::
  w.t2u_config__num_encoder_layers ::
  w.t2u_config__num_decoder_layers ::
  w.t2u_config__num_encoder_attn_heads ::
  w.t2u_config__num_decoder_attn_heads ::
  w.t2u_config__ffn_inner_dim ::
  w.t2u_config__dropout_p ::
  w.use_text_encoder ::
  w.use_conformer_adaptor ::
  w.num_adaptor_layers ::
  w.adaptor_kernel_size ::
  w.adaptor_stride ::
  w.adaptor_layer_norm ::
  w.adaptor_dropout_p :: []

/-- Rebuild a table from a list of 52 field values (inverse of
fieldsOf). -/
def ofFields : List (List Nat) → unity_hparams
  | f1 :: f2 :: f3 :: f4 :: f5 :: f6 :: f7 :: f8 :: f9 :: f10 :: f11 :: f12 :: f13 :: f14 :: f15 :: f16 :: f17 :: f18 :: f19 :: f20 :: f21 :: f22 :: f23 :: f24 :: f25 :: f26 :: f27 :: f28 :: f29 :: f30 :: f31 :: f32 :: f33 :: f34 :: f35 :: f36 :: f37 :: f38 :: f39 :: f40 :: f41 :: f42 :: f43 :: f44 :: f45 :: f46 :: f47 :: f48 :: f49 :: f50 :: f51 :: f52 :: [] =>
    ⟨f1, f2, f3, f4, f5, f6, f7, f8, f9, f10, f11, f12, f13, f14, f15, f16, f17, f18, f19, f20, f21, f22, f23, f24, f25, f26, f27, f28, f29, f30, f31, f32, f33, f34, f35, f36, f37, f38, f39, f40, f41, f42, f43, f44, f45, f46, f47, f48, f49, f50, f51, f52⟩
  | _ => ⟨[], [], [], [], [], [], [], [], [], [], [], [], [], [], [], [], [], [], [], [], [], [], [], [], [], [], [], [], [], [], [], [], [], [], [], [], [], [], [], [], [], [], [], [], [], [], [], [], [], [], [], []⟩

/-- One sequential read step per field: read the declared width, store
the extracted bytes into the field, continue with the rest of the
pairs.  This is the read loop of load_hparams in list form. -/
def readPairs : List (Nat × List Nat) → ByteStream → List (List Nat) × ByteStream
  | [], s => ([], s)
  | p :: ps, s =>
    let r := sread s p.1
    let res := readPairs ps r.2
    (writeInto p.2 r.1 :: res.1, res.2)

/-- Embedding of unity_model_loader::load_hparams: one fin.read of
sizeof(field) bytes per field, into the fields, in the exact source
order (the order is the one fixed by widthsOf and fieldsOf).  Note the
type: the function returns the updated table and stream and has no
error result; the stream failbit is the only record of a short read and
the source never inspects it. -/
def load_hparams (w : HparamWidths) (h0 : unity_hparams) (s : ByteStream) :
    unity_hparams × ByteStream :=
  let res := readPairs ((widthsOf w).zip (fieldsOf h0)) s
  (ofFields res.1, res.2)

/-- Writing the table in the serialized fixed field order: the
concatenation of the field bytes. -/
def serializeHparams (h : unity_hparams) : List Nat :=
  (fieldsOf h).flatten

/-- The table h is well formed for the widths w: every field holds
exactly its declared number of bytes. -/
def wfHparams (w : HparamWidths) (h : unity_hparams) : Prop :=
  (fieldsOf h).map List.length = widthsOf w

instance (w : HparamWidths) (h : unity_hparams) : Decidable (wfHparams w h) := by
  unfold wfHparams; infer_instance

/-- Total byte count of the hyperparameter section. -/
def totalWidth (w : HparamWidths) : Nat :=
  (widthsOf w).sum

theorem ofFields_fieldsOf (h : unity_hparams) : ofFields (fieldsOf h) = h := by
  cases h; rfl

theorem sread_exact (b x : List Nat) :
    sread ⟨b ++ x, false⟩ b.length = (b, ⟨x, false⟩) := by
  simp [sread, List.take_left, List.drop_left, List.length_append]

theorem writeInto_full (old b : List Nat) (h : old.length ≤ b.length) :
    writeInto old b = b := by
  simp [writeInto, List.drop_eq_nil_of_le h]

theorem readPairs_exact : ∀ (ws : List Nat) (olds bs : List (List Nat)) (r : List Nat),
    olds.map List.length = ws → bs.map List.length = ws →
    readPairs (ws.zip olds) ⟨bs.flatten ++ r, false⟩ = (bs, ⟨r, false⟩) := by
  intro ws
  induction ws with
  | nil =>
    intro olds bs r ho hb
    have holds : olds = [] := List.map_eq_nil_iff.mp ho
    have hbs : bs = [] := List.map_eq_nil_iff.mp hb
    subst holds; subst hbs
    simp [readPairs]
  | cons w ws ih =>
    intro olds bs r ho hb
    cases olds with
    | nil => simp at ho
    | cons o os =>
      cases bs with
      | nil => simp at hb
      | cons b bs2 =>
        simp only [List.map_cons, List.cons.injEq] at ho hb
        have hw : w = b.length := hb.1.symm
        subst hw
        simp only [List.zip_cons_cons, readPairs, List.flatten_cons, List.append_assoc]
        rw [sread_exact]
        have h2 := ih os bs2 r ho.2 hb.2
        simp only [List.zip] at h2 ⊢
        rw [h2, writeInto_full o b (by omega)]

theorem readPairs_enough : ∀ (ps : List (Nat × List Nat)) (s : ByteStream),
    s.failbit = false → (ps.map Prod.fst).sum ≤ s.rest.length →
    (readPairs ps s).2.failbit = false ∧
    (readPairs ps s).2.rest.length = s.rest.length - (ps.map Prod.fst).sum := by
  intro ps
  induction ps with
  | nil =>
    intro s h1 h2
    simp [readPairs]
    exact h1
  | cons p ps ih =>
    intro s h1 h2
    obtain ⟨rest, fb⟩ := s
    dsimp only at h1 h2 ⊢
    subst h1
    simp only [List.map_cons, List.sum_cons] at h2 ⊢
    have hd : decide (rest.length < p.1) = false := by
      simp only [decide_eq_false_iff_not]
      omega
    simp only [readPairs, sread, Bool.false_eq_true, if_false, hd]
    have hih := ih ⟨List.drop p.1 rest, false⟩ rfl
      (by dsimp only; rw [List.length_drop]; omega)
    dsimp only at hih
    rw [List.length_drop] at hih
    exact ⟨hih.1, by rw [hih.2]; omega⟩

theorem widthsOf_length (w : HparamWidths) : (widthsOf w).length = 52 := rfl

theorem fieldsOf_length (h : unity_hparams) : (fieldsOf h).length = 52 := rfl

/-- C4: round-trip.  For every hyperparameter table, writing its fields
in the serialized fixed field order and reading the byte stream back
through load_hparams reproduces every field of the table bit-for-bit
(the whole table, hence each of the 52 fields, is reproduced exactly,
and the stream is consumed to its end with no failure). -/
theorem C4_hparams_roundtrip (w : HparamWidths) (h h0 : unity_hparams)
    (hh : wfHparams w h) (hh0 : wfHparams w h0) :
    load_hparams w h0 ⟨serializeHparams h, false⟩ = (h, ⟨[], false⟩) := by
  have hr := readPairs_exact (widthsOf w) (fieldsOf h0) (fieldsOf h) [] hh0 hh
  rw [List.append_nil] at hr
  simp only [load_hparams, serializeHparams, hr, ofFields_fieldsOf]

/-- Widths instance used by concrete examples: every field one byte
wide. -/
def wOne : HparamWidths :=
  ⟨1, 1, 1, 1, 1, 1, 1, 1, 1, 1, 1, 1, 1, 1, 1, 1, 1, 1, 1, 1, 1, 1, 1, 1, 1, 1,
   1, 1, 1, 1, 1, 1, 1, 1, 1, 1, 1, 1, 1, 1, 1, 1, 1, 1, 1, 1, 1, 1, 1, 1, 1, 1⟩

/-- Widths instance used by concrete examples: every field eight bytes
wide (64-bit scalars). -/
def wEight : HparamWidths :=
  ⟨8, 8, 8, 8, 8, 8, 8, 8, 8, 8, 8, 8, 8, 8, 8, 8, 8, 8, 8, 8, 8, 8, 8, 8, 8, 8,
   8, 8, 8, 8, 8, 8, 8, 8, 8, 8, 8, 8, 8, 8, 8, 8, 8, 8, 8, 8, 8, 8, 8, 8, 8, 8⟩

/-- A table whose 52 fields are each a single byte 7. -/
def hSeven : unity_hparams := ofFields (List.replicate 52 [7])

/-- A table whose 52 fields are each a single byte 0. -/
def hZeroOne : unity_hparams := ofFields (List.replicate 52 [0])

/-- A table whose 52 fields are each eight zero bytes. -/
def hZero : unity_hparams := ofFields (List.replicate 52 (List.replicate 8 0))

theorem C4_hparams_roundtrip_witness :
    wfHparams wOne hSeven ∧ wfHparams wOne hZeroOne ∧
      load_hparams wOne hZeroOne ⟨serializeHparams hSeven, false⟩ =
        (hSeven, ⟨[], false⟩) :=
  ⟨by decide, by decide,
   C4_hparams_roundtrip wOne hSeven hZeroOne (by decide) (by decide)⟩

/-- C9: no value-level validation.  For every input stream that still
holds at least the full byte count of the hyperparameter section,
load_hparams completes with the stream failbit clear, whatever the byte
values are: it never fails because of the value of a field.  The stream
contents are universally quantified, so any bit pattern (out-of-range
or negative dimensions and layer counts included) is accepted. -/
theorem C9_no_value_validation (w : HparamWidths) (h0 : unity_hparams)
    (s : ByteStream) (hf : s.failbit = false)
    (hlen : totalWidth w ≤ s.rest.length) :
    (load_hparams w h0 s).2.failbit = false := by
  have hzip : ((widthsOf w).zip (fieldsOf h0)).map Prod.fst = widthsOf w :=
    List.map_fst_zip _ _ (by rw [widthsOf_length, fieldsOf_length])
  have h := readPairs_enough ((widthsOf w).zip (fieldsOf h0)) s hf
    (by rw [hzip]; exact hlen)
  simpa [load_hparams] using h.1

theorem C9_no_value_validation_witness :
    totalWidth wEight ≤ (List.replicate 416 255).length ∧
      (load_hparams wEight hZero ⟨List.replicate 416 255, false⟩).2.failbit = false :=
  ⟨by decide,
   C9_no_value_validation wEight hZero ⟨List.replicate 416 255, false⟩ rfl (by decide)⟩

/-- C5: truncation behaviour of the code at a concrete truncated input.
With eight-byte fields, feeding a stream holding only the four bytes
1,2,3,4 (truncated inside the first field of the hyperparameter
section), load_hparams returns normally: the result is an ordinary
pair, no error of any kind is produced, the table is left partially
mutated (the first field keeps the four new bytes followed by its four
old bytes, every later field is untouched), and the only trace of the
truncation is the stream failbit, which load_hparams itself never
inspects.  This contradicts the claim that load_hparams fails with
TruncatedInputError and avoids a silently half-written table. -/
theorem C5_truncation_returns_silently :
    load_hparams wEight hZero ⟨[1, 2, 3, 4], false⟩ =
      ({ hZero with model_dim := [1, 2, 3, 4, 0, 0, 0, 0] }, ⟨[], true⟩) := by
  decide

/-- Little-endian unsigned value of a field byte string (byte 0 is the
least significant byte, as on the x86-64 targets of the source tree). -/
def leVal (bs : List Nat) : Nat :=
  bs.foldr (fun b acc => b % 256 + 256 * acc) 0

/-- Little-endian two-complement signed value of a field byte string:
the fixed-width integer the C++ code sees when it reads the field as a
signed scalar. -/
def sleVal (bs : List Nat) : Int :=
  if leVal bs < 2 ^ (8 * bs.length - 1) then (leVal bs : Int)
  else (leVal bs : Int) - 2 ^ (8 * bs.length)

/-- A tensor handle as the builder registers it: its name and its
dimensions.  Modelled from the spec: ggml tensors are opaque handles
created in the arena; the properties proved here only need the name and
the shape recorded at creation. -/
structure TensorRef where
  name : List Char
  dims : List Int
deriving DecidableEq

/-- One decoder layer of the architecture struct: a self-attention
sub-module and its normalization sub-module.  Modelled from the spec:
the struct is declared in a header not under src/; a sub-module that
the builder has not initialized yet is none (default-constructed). -/
structure TransformerDecoderLayer where
  self_attn : Option TensorRef
  self_attn_norm : Option TensorRef
deriving DecidableEq

/-- Default-constructed decoder layer: no sub-module initialized. -/
def defaultLayer : TransformerDecoderLayer := ⟨none, none⟩

/-- The decoder stack of the architecture struct. -/
structure TransformerDecoder where
  layers : List TransformerDecoderLayer
deriving DecidableEq

/-- struct UnityArch (source lines 81 to 83): the architecture struct
holding the text decoder. -/
structure UnityArch where
  text_decoder : TransformerDecoder
deriving DecidableEq

/-- The model record handed to the loader.  Modelled from the spec: the
definition of fairseq2_model is not under src/; it owns the
hyperparameter table, the architecture struct and the name-to-tensor
table (registration order preserved).  The arena context the source
names as model.ctx is opaque to every property proved here and is
carried as a unit field. -/
structure fairseq2_model where
  hparams : unity_hparams
  arch : UnityArch
  ctx : Unit
  tensors : List (List Char × TensorRef)
deriving DecidableEq

/-- Modelled from the spec: MultiheadAttention_init (defined in
fairseq2.cpp, which is not under src/) derives the attention block
shape from the model dimension and head count, allocates it from the
arena and registers the name-to-tensor pair in the table passed through
the model reference; it returns the initialized sub-module handle and
the extended table. -/
def MultiheadAttention_init (tensors : List (List Char × TensorRef))
    (name : List Char) (model_dim num_heads : Int) :
    TensorRef × List (List Char × TensorRef) :=
  let t : TensorRef := ⟨name, [model_dim, model_dim]⟩
  (t, tensors ++ [(name, t)])

/-- Modelled from the spec: LayerNorm_init (defined in fairseq2.cpp,
which is not under src/) allocates the normalization vector of the
given model dimension from the arena and registers the name-to-tensor
pair; it returns the initialized sub-module handle and the extended
table. -/
def LayerNorm_init (tensors : List (List Char × TensorRef))
    (name : List Char) (model_dim : Int) :
    TensorRef × List (List Char × TensorRef) :=
  let t : TensorRef := ⟨name, [model_dim]⟩
  (t, tensors ++ [(name, t)])

/-- The string the loop variable builds at index i:
"text_decoder.layers." + std::to_string(i) (source line 108).  Note the
source appends no dot after the index. -/
def layerPath (i : Nat) : List Char :=
  "text_decoder.layers.".toList ++ Nat.toDigits 10 i

/-- Name passed to MultiheadAttention_init at index i (source line
109). -/
def attnName (i : Nat) : List Char :=
  layerPath i ++ "self_attn".toList

/-- Name passed to LayerNorm_init at index i (source line 110). -/
def normName (i : Nat) : List Char :=
  layerPath i ++ "self_attn_norm".toList

/-- Body of the for-loop of tensors_alloc (source lines 107 to 111):
the state is the local vector copy of the layers plus the tensor table
reached through the model reference; iteration i initializes
layers[i].self_attn and layers[i].self_attn_norm of the local copy and
registers the two names. -/
def decoderLayerStep (model_dim num_heads : Int)
    (st : List TransformerDecoderLayer × List (List Char × TensorRef))
    (i : Nat) :
    List TransformerDecoderLayer × List (List Char × TensorRef) :=
  let a := MultiheadAttention_init st.2 (layerPath i ++ "self_attn".toList)
    model_dim num_heads
  let layers1 := st.1.set i { st.1.getD i defaultLayer with self_attn := some a.1 }
  let b := LayerNorm_init a.2 (layerPath i ++ "self_attn_norm".toList) model_dim
  let layers2 := layers1.set i
    { layers1.getD i defaultLayer with self_attn_norm := some b.1 }
  (layers2, b.2)

/-- Embedding of unity_model_loader::tensors_alloc (source lines 85 to
119).  Mirrors the source statement by statement: the commented-out
frontend embedding and final layer-norm blocks do nothing; the layers
member of the architecture struct is assigned a vector of n_layers
default-constructed layers; the statement
auto layers = arch.text_decoder.layers takes a copy of that vector
(auto deduces a value, not a reference), so the loop initializes the
copy, which is discarded when the scope ends; only the registrations
made through the model reference survive.  The loop bound is the signed
value of the field, so a non-positive count runs zero iterations. -/
def tensors_alloc (m : fairseq2_model) : fairseq2_model :=
  let hparams := m.hparams
  let ctx := m.ctx
  let vocab_size := sleVal hparams.nllb_config__vocabulary_size
  let model_dim := sleVal hparams.nllb_config__model_dim
  let n_layers := sleVal hparams.nllb_config__num_decoder_layers
  let archLayers := List.replicate n_layers.toNat defaultLayer
  let layersCopy := archLayers
  let num_heads := sleVal hparams.nllb_config__num_decoder_attn_heads
  let looped := (List.range n_layers.toNat).foldl
    (decoderLayerStep model_dim num_heads) (layersCopy, m.tensors)
  { m with arch := ⟨⟨archLayers⟩⟩, tensors := looped.2 }

/-- Signed decoder layer count of the table, clamped at zero exactly as
the loop bound clamps it. -/
def layerCountNat (m : fairseq2_model) : Nat :=
  (sleVal m.hparams.nllb_config__num_decoder_layers).toNat

/-- The name-tensor pairs the loop registers for the first n indices,
in registration order. -/
def pairsUpTo (d : Int) : Nat → List (List Char × TensorRef)
  | 0 => []
  | n + 1 =>
    pairsUpTo d n ++
      [(attnName n, ⟨attnName n, [d, d]⟩), (normName n, ⟨normName n, [d]⟩)]

/-- The names the loop registers for the first n indices, in
registration order. -/
def namesUpTo : Nat → List (List Char)
  | 0 => []
  | n + 1 => namesUpTo n ++ [attnName n, normName n]

/-- The names tensors_alloc itself registers (the entries it appends
after the ones already in the table). -/
def passNames (m : fairseq2_model) : List (List Char) :=
  (((tensors_alloc m).tensors).map Prod.fst).drop m.tensors.length

theorem decoderLayerStep_tensors (d h : Int)
    (st : List TransformerDecoderLayer × List (List Char × TensorRef)) (i : Nat) :
    (decoderLayerStep d h st i).2 =
      st.2 ++ [(attnName i, ⟨attnName i, [d, d]⟩), (normName i, ⟨normName i, [d]⟩)] := by
  simp [decoderLayerStep, MultiheadAttention_init, LayerNorm_init, attnName, normName]

theorem loop_tensors (d h : Int) : ∀ (n : Nat) (ls : List TransformerDecoderLayer)
    (t : List (List Char × TensorRef)),
    ((List.range n).foldl (decoderLayerStep d h) (ls, t)).2 = t ++ pairsUpTo d n := by
  intro n
  induction n with
  | zero => intro ls t; simp [pairsUpTo]
  | succ n ih =>
    intro ls t
    rw [List.range_succ, List.foldl_append]
    simp only [List.foldl_cons, List.foldl_nil]
    rw [decoderLayerStep_tensors, ih ls t]
    simp [pairsUpTo, List.append_assoc]

theorem tensors_alloc_tensors (m : fairseq2_model) :
    (tensors_alloc m).tensors =
      m.tensors ++
        pairsUpTo (sleVal m.hparams.nllb_config__model_dim) (layerCountNat m) := by
  simp only [tensors_alloc, layerCountNat]
  rw [loop_tensors]

theorem tensors_alloc_arch (m : fairseq2_model) :
    (tensors_alloc m).arch.text_decoder.layers =
      List.replicate (layerCountNat m) defaultLayer := rfl

theorem pairsUpTo_map_fst (d : Int) : ∀ n, (pairsUpTo d n).map Prod.fst = namesUpTo n := by
  intro n
  induction n with
  | zero => rfl
  | succ n ih => simp [pairsUpTo, namesUpTo, ih]

theorem pairsUpTo_length (d : Int) : ∀ n, (pairsUpTo d n).length = 2 * n := by
  intro n
  induction n with
  | zero => rfl
  | succ n ih => simp [pairsUpTo, ih]; omega

theorem namesUpTo_length : ∀ n, (namesUpTo n).length = 2 * n := by
  intro n
  induction n with
  | zero => rfl
  | succ n ih => simp [namesUpTo, ih]; omega

theorem passNames_eq (m : fairseq2_model) :
    passNames m = namesUpTo (layerCountNat m) := by
  rw [passNames, tensors_alloc_tensors, List.map_append]
  rw [show m.tensors.length = (m.tensors.map Prod.fst).length from
    (List.length_map _ _).symm]
  rw [List.drop_left, pairsUpTo_map_fst]

theorem mem_namesUpTo_attn : ∀ {n i : Nat}, i < n → attnName i ∈ namesUpTo n := by
  intro n
  induction n with
  | zero => intro i hi; omega
  | succ n ih =>
    intro i hi
    rcases Nat.lt_succ_iff_lt_or_eq.mp hi with hlt | heq
    · simp [namesUpTo, ih hlt]
    · subst heq; simp [namesUpTo]

theorem mem_namesUpTo_norm : ∀ {n i : Nat}, i < n → normName i ∈ namesUpTo n := by
  intro n
  induction n with
  | zero => intro i hi; omega
  | succ n ih =>
    intro i hi
    rcases Nat.lt_succ_iff_lt_or_eq.mp hi with hlt | heq
    · simp [namesUpTo, ih hlt]
    · subst heq; simp [namesUpTo]

theorem mem_namesUpTo_shape : ∀ {n : Nat} (x : List Char), x ∈ namesUpTo n →
    ∃ i, i < n ∧ (x = attnName i ∨ x = normName i) := by
  intro n
  induction n with
  | zero => intro x hx; simp [namesUpTo] at hx
  | succ n ih =>
    intro x hx
    simp only [namesUpTo, List.mem_append, List.mem_cons, List.mem_singleton] at hx
    rcases hx with hx | hx
    · obtain ⟨i, hi, hor⟩ := ih x hx
      exact ⟨i, by omega, hor⟩
    · rcases hx with hx | hx | hx
      · exact ⟨n, by omega, Or.inl hx⟩
      · exact ⟨n, by omega, Or.inr hx⟩
      · simp at hx

theorem namesUpTo_take : ∀ (k n : Nat), n ≤ k → namesUpTo n = (namesUpTo k).take (2 * n) := by
  intro k
  induction k with
  | zero =>
    intro n h
    have : n = 0 := by omega
    subst this
    rfl
  | succ k ih =>
    intro n h
    by_cases hnk : n ≤ k
    · rw [show namesUpTo (k + 1) = namesUpTo k ++ [attnName k, normName k] from rfl]
      rw [List.take_append_of_le_length (by rw [namesUpTo_length]; omega)]
      exact ih n hnk
    · have : n = k + 1 := by omega
      subst this
      rw [← namesUpTo_length (k + 1)]
      exact (List.take_length _).symm

theorem namesUpTo24_nodup : (namesUpTo 24).Nodup := by decide

/-- C7: name uniqueness.  For every model whose decoder layer count is
at most 24, the tensor names registered by the full tensors_alloc pass
are pairwise distinct: no name is ever registered twice. -/
theorem C7_pass_names_nodup (m : fairseq2_model) (n : Nat)
    (hn : layerCountNat m = n) (hb : n ≤ 24) :
    (passNames m).Nodup := by
  rw [passNames_eq, hn, namesUpTo_take 24 n hb]
  exact List.Nodup.sublist (List.take_sublist _ _) namesUpTo24_nodup

/-- Table for the worked example of the spec: two decoder layers, model
dimension 512, eight attention heads in the nllb block (the fields are
64-bit little-endian scalars); every other field is zero. -/
def hTwo : unity_hparams :=
  { hZero with
    nllb_config__model_dim := [0, 2, 0, 0, 0, 0, 0, 0],
    nllb_config__num_decoder_layers := [2, 0, 0, 0, 0, 0, 0, 0],
    nllb_config__num_decoder_attn_heads := [8, 0, 0, 0, 0, 0, 0, 0] }

/-- Freshly created model holding the two-layer table: empty tensor
table, empty decoder stack. -/
def mTwo : fairseq2_model := ⟨hTwo, ⟨⟨[]⟩⟩, (), []⟩

theorem C7_pass_names_nodup_witness :
    layerCountNat mTwo = 2 ∧ 2 ≤ 24 ∧ (passNames mTwo).Nodup :=
  ⟨by decide, by decide, C7_pass_names_nodup mTwo 2 (by decide) (by decide)⟩

/-- C1: the names the pass registers for the worked example of the spec
(num_decoder_layers two, model_dim 512, num_decoder_attn_heads eight).
The source builds the per-layer string as
"text_decoder.layers." + std::to_string(i) and then appends the
sub-component suffix directly, with no dot between the index and the
suffix, so the four registered names are text_decoder.layers.0self_attn
and so on, and the dotted name text_decoder.layers.0.self_attn the
claim prescribes is not among them. -/
theorem C1_registered_names_lack_dot :
    ((tensors_alloc mTwo).tensors).map Prod.fst =
      ["text_decoder.layers.0self_attn".toList,
       "text_decoder.layers.0self_attn_norm".toList,
       "text_decoder.layers.1self_attn".toList,
       "text_decoder.layers.1self_attn_norm".toList] ∧
    "text_decoder.layers.0.self_attn".toList ∉
      ((tensors_alloc mTwo).tensors).map Prod.fst := by
  decide

/-- C6: for every model whose table carries decoder layer count n, the
pass starting from an empty tensor table registers exactly the n
self-attention and n normalization tensors, named with the zero-based
indices 0 to n-1 in order, and the tensor table holds exactly 2n
entries afterwards (the pass registers no fixed non-layer tensor). -/
theorem C6_layer_pass_contents (m : fairseq2_model) (n : Nat)
    (hn : layerCountNat m = n) (ht : m.tensors = []) :
    ((tensors_alloc m).tensors).map Prod.fst = namesUpTo n ∧
    ((tensors_alloc m).tensors).length = 2 * n ∧
    ∀ i, i < n →
      attnName i ∈ ((tensors_alloc m).tensors).map Prod.fst ∧
      normName i ∈ ((tensors_alloc m).tensors).map Prod.fst := by
  have h1 : ((tensors_alloc m).tensors).map Prod.fst = namesUpTo n := by
    rw [tensors_alloc_tensors, ht, hn]
    simp [pairsUpTo_map_fst]
  refine ⟨h1, ?_, ?_⟩
  · rw [tensors_alloc_tensors, ht, hn]
    simp [pairsUpTo_length]
  · intro i hi
    rw [h1]
    exact ⟨mem_namesUpTo_attn hi, mem_namesUpTo_norm hi⟩

theorem C6_layer_pass_contents_witness :
    layerCountNat mTwo = 2 ∧ mTwo.tensors = [] ∧
    (((tensors_alloc mTwo).tensors).map Prod.fst = namesUpTo 2 ∧
     ((tensors_alloc mTwo).tensors).length = 2 * 2 ∧
     ∀ i, i < 2 →
       attnName i ∈ ((tensors_alloc mTwo).tensors).map Prod.fst ∧
       normName i ∈ ((tensors_alloc mTwo).tensors).map Prod.fst) :=
  ⟨by decide, rfl, C6_layer_pass_contents mTwo 2 (by decide) rfl⟩

theorem append_path_ne (t r : List Char)
    (h : t.take 20 ≠ "text_decoder.layers.".toList) :
    "text_decoder.layers.".toList ++ r ≠ t := by
  intro he
  apply h
  rw [← he]
  rw [show (20 : Nat) = ("text_decoder.layers.".toList).length from rfl,
    List.take_left]

theorem attnName_ne (t : List Char)
    (h : t.take 20 ≠ "text_decoder.layers.".toList) (i : Nat) :
    attnName i ≠ t := by
  have hp := append_path_ne t (Nat.toDigits 10 i ++ "self_attn".toList) h
  simpa [attnName, layerPath, List.append_assoc] using hp

theorem normName_ne (t : List Char)
    (h : t.take 20 ≠ "text_decoder.layers.".toList) (i : Nat) :
    normName i ≠ t := by
  have hp := append_path_ne t (Nat.toDigits 10 i ++ "self_attn_norm".toList) h
  simpa [normName, layerPath, List.append_assoc] using hp

/-- C8: frame property of the pass.  tensors_alloc never registers the
frontend embedding name text_decoder_frontend.embed.weight nor the
final layer-normalization names text_decoder.layer_norm.weight and
text_decoder.layer_norm.bias (those statements are commented out in the
source); every name the pass registers is a per-layer self-attention or
per-layer normalization name of the text decoder stack. -/
theorem C8_no_frontend_no_final_norm (m : fairseq2_model) (n : Nat)
    (hn : layerCountNat m = n) :
    "text_decoder_frontend.embed.weight".toList ∉ passNames m ∧
    "text_decoder.layer_norm.weight".toList ∉ passNames m ∧
    "text_decoder.layer_norm.bias".toList ∉ passNames m ∧
    ∀ x ∈ passNames m, ∃ i, i < n ∧ (x = attnName i ∨ x = normName i) := by
  rw [passNames_eq, hn]
  refine ⟨?_, ?_, ?_, fun x hx => mem_namesUpTo_shape x hx⟩
  all_goals
    intro hx
    obtain ⟨i, _, h1 | h1⟩ := mem_namesUpTo_shape _ hx
  · exact attnName_ne _ (by decide) i h1.symm
  · exact normName_ne _ (by decide) i h1.symm
  · exact attnName_ne _ (by decide) i h1.symm
  · exact normName_ne _ (by decide) i h1.symm
  · exact attnName_ne _ (by decide) i h1.symm
  · exact normName_ne _ (by decide) i h1.symm

theorem C8_no_frontend_no_final_norm_witness :
    layerCountNat mTwo = 2 ∧
    ("text_decoder_frontend.embed.weight".toList ∉ passNames mTwo ∧
     "text_decoder.layer_norm.weight".toList ∉ passNames mTwo ∧
     "text_decoder.layer_norm.bias".toList ∉ passNames mTwo ∧
     ∀ x ∈ passNames mTwo, ∃ i, i < 2 ∧ (x = attnName i ∨ x = normName i)) :=
  ⟨by decide, C8_no_frontend_no_final_norm mTwo 2 (by decide)⟩

/-- C10: the architecture struct after the pass.  tensors_alloc resizes
arch.text_decoder.layers to exactly the configured decoder layer count,
but the per-layer MultiheadAttention_init and LayerNorm_init calls are
applied to a local copy of that vector (auto layers = ... copies), so
every element of the model architecture struct stays
default-constructed, even though the pass did run and registered its 2n
table entries. -/
theorem C10_arch_layers_left_default (m : fairseq2_model) (n : Nat)
    (hn : layerCountNat m = n) :
    (tensors_alloc m).arch.text_decoder.layers = List.replicate n defaultLayer ∧
    ((tensors_alloc m).arch.text_decoder.layers).length = n ∧
    (∀ l ∈ (tensors_alloc m).arch.text_decoder.layers,
      l.self_attn = none ∧ l.self_attn_norm = none) ∧
    ((tensors_alloc m).tensors).length = m.tensors.length + 2 * n := by
  have ha : (tensors_alloc m).arch.text_decoder.layers =
      List.replicate n defaultLayer := by
    rw [tensors_alloc_arch, hn]
  refine ⟨ha, ?_, ?_, ?_⟩
  · rw [ha, List.length_replicate]
  · intro l hl
    rw [ha] at hl
    have hd := List.eq_of_mem_replicate hl
    subst hd
    exact ⟨rfl, rfl⟩
  · rw [tensors_alloc_tensors, hn]
    simp [pairsUpTo_length]

theorem C10_arch_layers_left_default_witness :
    layerCountNat mTwo = 2 ∧
    ((tensors_alloc mTwo).arch.text_decoder.layers = List.replicate 2 defaultLayer ∧
     ((tensors_alloc mTwo).arch.text_decoder.layers).length = 2 ∧
     (∀ l ∈ (tensors_alloc mTwo).arch.text_decoder.layers,
       l.self_attn = none ∧ l.self_attn_norm = none) ∧
     ((tensors_alloc mTwo).tensors).length = mTwo.tensors.length + 2 * 2) :=
  ⟨by decide, C10_arch_layers_left_default mTwo 2 (by decide)⟩

/-- Embedding of unity_model_loader::compute_context_size (source lines
73 to 79).  The parameter of the source function is void* raw_hparams,
and the C-style cast (unity_hparams&)raw_hparams binds a unity_hparams
reference over the pointer variable itself, not over the pointed-to
table, so the hparams.model_dim the function multiplies is the byte
content of the pointer value: on the 64-bit little-endian target, with
model_dim the first field of the struct, that value is the address at
which the table is stored.  addr is that pointer value; the pointed-to
table h is passed but never read.  The product is returned as size_t,
hence the reduction modulo 2 to the 64. -/
def compute_context_size (addr : Nat) (h : unity_hparams) : Nat :=
  ((addr % 2 ^ 64) * 1024 * 100) % 2 ^ 64

/-- The evidently intended reading of compute_context_size, with the
cast dereferencing the pointer as the rest of the loader means to do:
the top-level model_dim field of the table times 1024 times 100,
returned as size_t. -/
def compute_context_size_deref (h : unity_hparams) : Nat :=
  (leVal h.model_dim * 1024 * 100) % 2 ^ 64

/-- Modelled from the spec: the byte count a registered tensor requests
from the arena, the product of its dimensions times the four-byte f32
element size. -/
def tensorBytes (t : TensorRef) : Nat :=
  4 * (t.dims.map Int.toNat).prod

/-- Total bytes the tensors registered by the tensors_alloc pass
request from the arena. -/
def allocRequestBytes (m : fairseq2_model) : Nat :=
  ((((tensors_alloc m).tensors).drop m.tensors.length).map
    (fun p => tensorBytes p.2)).sum

/-- C3: at one and the same table (every field bit-for-bit equal, here
literally the same record hZero), two calls of compute_context_size
with the table stored at two different addresses return different byte
counts: the result depends on where the table is stored, not only on
its field values, because the source reads model_dim out of the pointer
variable rather than out of the table. -/
theorem C3_context_size_reads_pointer_bytes :
    compute_context_size 4096 hZero ≠ compute_context_size 8192 hZero ∧
    compute_context_size_deref hZero = 0 := by
  decide

/-- Table reachable from a serialized stream for which the size
estimate under-runs the builder: top-level model_dim is zero while the
nllb block configures one decoder layer of dimension 512. -/
def hUnder : unity_hparams :=
  { hZero with
    nllb_config__model_dim := [0, 2, 0, 0, 0, 0, 0, 0],
    nllb_config__num_decoder_layers := [1, 0, 0, 0, 0, 0, 0, 0],
    nllb_config__num_decoder_attn_heads := [8, 0, 0, 0, 0, 0, 0, 0] }

/-- Freshly created model holding that table. -/
def mUnder : fairseq2_model := ⟨hUnder, ⟨⟨[]⟩⟩, (), []⟩

/-- C2: the size estimate does not bound the bytes the builder
requests.  The table hUnder is produced by a valid serialized input
(its own serialization loads back bit-for-bit with a clean stream), yet
even under the charitable dereferencing reading the estimate is
model_dim * 1024 * 100 = 0 bytes, strictly less than the more than one
megabyte the single 512 by 512 attention tensor plus its normalization
vector request from the arena. -/
theorem C2_context_size_underestimates :
    load_hparams wEight hZero ⟨serializeHparams hUnder, false⟩ =
      (hUnder, ⟨[], false⟩) ∧
    compute_context_size_deref mUnder.hparams < allocRequestBytes mUnder := by
  decide
